import Mathlib

/-!
Verification of the namespace-join orchestration of `nsenter.go`
(package `main` of bustakube/go-nsenter).

The program is embedded shallowly as an event-trace semantics:
each syscall site of the Go source is an `Event`, and the whole
invocation (`main`, lines 58-157) is the function `run`, driven by a
`World` that records which syscall succeeds.  The trace is the exact
sequence of successfully performed actions, in source order; the
`Outcome` is how the process terminates.
-/

namespace NsEnter

/-- Clone-flag constants of `golang.org/x/sys/unix` used by `nsMap`. -/
def CLONE_NEWNS : Nat := 0x00020000
def CLONE_NEWUTS : Nat := 0x04000000
def CLONE_NEWIPC : Nat := 0x08000000
def CLONE_NEWUSER : Nat := 0x10000000
def CLONE_NEWPID : Nat := 0x20000000
def CLONE_NEWNET : Nat := 0x40000000

/-- `nsMap` (nsenter.go lines 24-31): supported namespace kinds and their
clone flags. -/
def nsMap (s : String) : Option Nat :=
  if s = "mnt" then some CLONE_NEWNS
  else if s = "net" then some CLONE_NEWNET
  else if s = "ipc" then some CLONE_NEWIPC
  else if s = "uts" then some CLONE_NEWUTS
  else if s = "user" then some CLONE_NEWUSER
  else if s = "pid" then some CLONE_NEWPID
  else none

/-- The environment of one invocation: which syscall succeeds.
`openNs p k` is the success of `os.Open "/proc/p/ns/k"`; `setnsOk k` the
success of `unix.Setns` for kind `k`; `unshareOk` of
`unix.Unshare(CLONE_NEWNS)`; `execOk` of `unix.Exec`; `startOk` whether
`exec.Command(...).Run()` could start the child, and `childExit` the
child's exit status when started. -/
structure World where
  openNs : Nat → String → Bool
  unshareOk : Bool
  setnsOk : String → Bool
  execOk : Bool
  startOk : Bool
  childExit : Nat

/-- The parsed command-line request (after flag parsing and the
argument-validation exit of lines 80-83): target PID and the five
namespace selectors. -/
structure Request where
  target : Nat
  mnt : Bool
  uts : Bool
  net : Bool
  ipc : Bool
  pid : Bool

/-- One observable action of the program, in source order:
`openNs k` is a successful `os.Open` inside `enterNamespace`;
`openPidHandle` the unconditional open of `/proc/target/ns/pid`
(line 109); `unshare` the mount self-detach (line 47); `setns k` a
successful bind (line 52, or line 124 for the deferred pid bind);
`advisory` the println of line 130; `forkRun b` the `cmd.Run()` call of
line 140, `b` being the value of the CLONE_NEWPID clone flag in
`cmd.SysProcAttr` at the moment `Run` is invoked;
`attrAssignedAfterRun` the assignment of lines 145-147, which happens
only after `Run` has returned; `execReplace` the `unix.Exec` call of
line 150. -/
inductive Event where
  | openNs (kind : String)
  | openPidHandle
  | unshare
  | setns (kind : String)
  | advisory
  | forkRun (cloneNewPid : Bool)
  | attrAssignedAfterRun
  | execReplace
deriving DecidableEq, Repr

/-- The kind-tagged failures of the source (section 7 of the spec). -/
inductive Err where
  | openFailure (kind : String)
  | unsupported (kind : String)
  | detachFailure
  | bindFailure (kind : String)
  | launchFailure
deriving DecidableEq, Repr

/-- How the invocation terminates: `exited c d` is `os.Exit c` (or the
implicit exit at the end of `main`) with diagnostic `d`; `replaced` is
a successful `unix.Exec`, which never returns. -/
inductive Outcome where
  | exited (code : Nat) (diag : Option Err)
  | replaced
deriving DecidableEq, Repr

/-- `enterNamespace` (nsenter.go lines 33-56): open
`/proc/pid/ns/nsType`, look the kind up in `nsMap`, for `"mnt"` first
`unix.Unshare(CLONE_NEWNS)`, then `unix.Setns`.  Returns the events
performed and the error, if any. -/
def enterNamespace (w : World) (pid : Nat) (nsType : String) :
    List Event × Option Err :=
  if w.openNs pid nsType then
    match nsMap nsType with
    | none => ([Event.openNs nsType], some (Err.unsupported nsType))
    | some _ =>
      if nsType = "mnt" then
        if w.unshareOk then
          if w.setnsOk nsType then
            ([Event.openNs nsType, Event.unshare, Event.setns nsType], none)
          else
            ([Event.openNs nsType, Event.unshare],
              some (Err.bindFailure nsType))
        else ([Event.openNs nsType], some Err.detachFailure)
      else
        if w.setnsOk nsType then
          ([Event.openNs nsType, Event.setns nsType], none)
        else ([Event.openNs nsType], some (Err.bindFailure nsType))
  else ([], some (Err.openFailure nsType))

/-- One conditional `enterNamespace` step of `main` (the pattern of
lines 90-104 and 116-120): skipped if a previous step already failed
(the process has exited) or the kind is not requested. -/
def seqNs (cond : Bool) (w : World) (p : Nat) (k : String)
    (acc : List Event × Option Err) : List Event × Option Err :=
  match acc with
  | (t, some e) => (t, some e)
  | (t, none) =>
    if cond then (t ++ (enterNamespace w p k).1, (enterNamespace w p k).2)
    else (t, none)

/-- Lines 90-94: `if utsNs { enterNamespace(pid, "uts") }`. -/
def s1 (w : World) (r : Request) : List Event × Option Err :=
  seqNs r.uts w r.target "uts" ([], none)

/-- Lines 95-99: the `net` step. -/
def s2 (w : World) (r : Request) : List Event × Option Err :=
  seqNs r.net w r.target "net" (s1 w r)

/-- Lines 100-104: the `ipc` step. -/
def s3 (w : World) (r : Request) : List Event × Option Err :=
  seqNs r.ipc w r.target "ipc" (s2 w r)

/-- Lines 106-114: the unconditional open of `/proc/target/ns/pid`,
performed before any mount switch; failure exits with status 1. -/
def s4 (w : World) (r : Request) : List Event × Option Err :=
  match s3 w r with
  | (t, some e) => (t, some e)
  | (t, none) =>
    if w.openNs r.target "pid" then (t ++ [Event.openPidHandle], none)
    else (t, some (Err.openFailure "pid"))

/-- Lines 116-120: the `mnt` step. -/
def s5 (w : World) (r : Request) : List Event × Option Err :=
  seqNs r.mnt w r.target "mnt" (s4 w r)

/-- Lines 123-132: the deferred pid bind using the pre-opened handle,
then the advisory when the mount namespace was not requested. -/
def s6 (w : World) (r : Request) : List Event × Option Err :=
  match s5 w r with
  | (t, some e) => (t, some e)
  | (t, none) =>
    if r.pid then
      if w.setnsOk "pid" then
        (t ++ [Event.setns "pid"] ++
          (if r.mnt then [] else [Event.advisory]), none)
      else (t, some (Err.bindFailure "pid"))
    else (t, none)

/-- The namespace-join part of `main` (lines 90-132): trace of events
performed and the error that caused the exit, if any. -/
def runJoins (w : World) (r : Request) : List Event × Option Err :=
  s6 w r

/-- `main` after argument validation (nsenter.go lines 85-157): the
join sequence, then the launch.  `needsFork` is true exactly when the
`pidNs` branch of line 123 ran to completion, so at the launch point it
equals `r.pid`.  In fork mode `cmd.Run()` is invoked with no
`SysProcAttr` set (the clone flag is assigned only afterwards, lines
145-147); `Run` returns an error when the child could not be started
or exited nonzero, and `main` then exits 1; otherwise `main` falls off
the end with status 0.  In replace mode `unix.Exec` either replaces
the image or the program exits 1. -/
def run (w : World) (r : Request) : List Event × Outcome :=
  match runJoins w r with
  | (t, some e) => (t, Outcome.exited 1 (some e))
  | (t, none) =>
    if r.pid then
      let t2 := t ++ [Event.forkRun false]
      if w.startOk && w.childExit == 0 then
        (t2 ++ [Event.attrAssignedAfterRun], Outcome.exited 0 none)
      else (t2, Outcome.exited 1 (some Err.launchFailure))
    else
      let t2 := t ++ [Event.execReplace]
      if w.execOk then (t2, Outcome.replaced)
      else (t2, Outcome.exited 1 (some Err.launchFailure))

/-- Position of each event in the fixed source order of `main`; used to
state the temporal claims.  Events that cannot occur get 99. -/
def stage : Event → Nat
  | Event.openNs k =>
    if k = "uts" then 1 else if k = "net" then 3
    else if k = "ipc" then 5 else if k = "mnt" then 8 else 99
  | Event.setns k =>
    if k = "uts" then 2 else if k = "net" then 4
    else if k = "ipc" then 6 else if k = "mnt" then 10
    else if k = "pid" then 11 else 99
  | Event.openPidHandle => 7
  | Event.unshare => 9
  | Event.advisory => 12
  | Event.forkRun _ => 13
  | Event.execReplace => 13
  | Event.attrAssignedAfterRun => 14

/-- The source position of the operation that produced a given error:
the open, unshare or setns site whose failure is tagged `e`. -/
def errStage : Err → Nat
  | Err.openFailure k =>
    if k = "uts" then 1 else if k = "net" then 3
    else if k = "ipc" then 5 else if k = "pid" then 7
    else if k = "mnt" then 8 else 99
  | Err.unsupported _ => 99
  | Err.detachFailure => 9
  | Err.bindFailure k =>
    if k = "uts" then 2 else if k = "net" then 4
    else if k = "ipc" then 6 else if k = "mnt" then 10
    else if k = "pid" then 11 else 99
  | Err.launchFailure => 13

/-- All operations up to a step succeeded: each requested kind among
uts/net/ipc could be opened and bound, the unconditional pid-handle
open succeeded, the mount step (open, unshare, bind) succeeded if
requested and the deferred pid bind succeeded if requested. -/
def allNsOk (w : World) (r : Request) : Bool :=
  (!r.uts || (w.openNs r.target "uts" && w.setnsOk "uts")) &&
  (!r.net || (w.openNs r.target "net" && w.setnsOk "net")) &&
  (!r.ipc || (w.openNs r.target "ipc" && w.setnsOk "ipc")) &&
  w.openNs r.target "pid" &&
  (!r.mnt || (w.openNs r.target "mnt" && w.unshareOk && w.setnsOk "mnt")) &&
  (!r.pid || w.setnsOk "pid")

/-- The trace left by a fully successful join sequence. -/
def fullTrace (r : Request) : List Event :=
  (if r.uts then [Event.openNs "uts", Event.setns "uts"] else []) ++
  (if r.net then [Event.openNs "net", Event.setns "net"] else []) ++
  (if r.ipc then [Event.openNs "ipc", Event.setns "ipc"] else []) ++
  [Event.openPidHandle] ++
  (if r.mnt then [Event.openNs "mnt", Event.unshare, Event.setns "mnt"]
   else []) ++
  (if r.pid then
    Event.setns "pid" :: (if r.mnt then [] else [Event.advisory])
   else [])

/-- The trace left by the successful uts/net/ipc steps alone. -/
def pre3 (r : Request) : List Event :=
  (if r.uts then [Event.openNs "uts", Event.setns "uts"] else []) ++
  (if r.net then [Event.openNs "net", Event.setns "net"] else []) ++
  (if r.ipc then [Event.openNs "ipc", Event.setns "ipc"] else [])

/-- A trace respects the source order when the stages of its events are
nondecreasing. -/
@[reducible] def Ordered (t : List Event) : Prop :=
  List.Pairwise (fun a b => stage a ≤ stage b) t

/-- Invariant carried through the join steps: on success every event so
far sits at stage at most `B`; on failure every event sits strictly
before the failing operation, which itself is at stage at most `B`;
and the trace respects the source order. -/
@[reducible] def InvP (s : List Event × Option Err) (B : Nat) : Prop :=
  (match s.2 with
   | some e => (∀ ev ∈ s.1, stage ev < errStage e) ∧ errStage e ≤ B
   | none => ∀ ev ∈ s.1, stage ev ≤ B) ∧ Ordered s.1

/-- What one `enterNamespace` call contributes, relative to the stage
window `(B, B']` it is allowed to occupy. -/
@[reducible] def StepP (s : List Event × Option Err) (B B' : Nat) : Prop :=
  (match s.2 with
   | some e =>
     (∀ ev ∈ s.1, B < stage ev ∧ stage ev < errStage e) ∧
       B < errStage e ∧ errStage e ≤ B'
   | none => ∀ ev ∈ s.1, B < stage ev ∧ stage ev ≤ B') ∧ Ordered s.1

/-- The three possible results of `enterNamespace` for the uts kind. -/
theorem ens_uts_cases (w : World) (p : Nat) :
    enterNamespace w p "uts" =
        ([Event.openNs "uts", Event.setns "uts"], none) ∨
      enterNamespace w p "uts" =
        ([Event.openNs "uts"], some (Err.bindFailure "uts")) ∨
      enterNamespace w p "uts" = ([], some (Err.openFailure "uts")) := by
  cases h1 : w.openNs p "uts" <;> cases h2 : w.setnsOk "uts" <;>
    simp [enterNamespace, nsMap, h1, h2]

theorem ens_net_cases (w : World) (p : Nat) :
    enterNamespace w p "net" =
        ([Event.openNs "net", Event.setns "net"], none) ∨
      enterNamespace w p "net" =
        ([Event.openNs "net"], some (Err.bindFailure "net")) ∨
      enterNamespace w p "net" = ([], some (Err.openFailure "net")) := by
  cases h1 : w.openNs p "net" <;> cases h2 : w.setnsOk "net" <;>
    simp [enterNamespace, nsMap, h1, h2]

theorem ens_ipc_cases (w : World) (p : Nat) :
    enterNamespace w p "ipc" =
        ([Event.openNs "ipc", Event.setns "ipc"], none) ∨
      enterNamespace w p "ipc" =
        ([Event.openNs "ipc"], some (Err.bindFailure "ipc")) ∨
      enterNamespace w p "ipc" = ([], some (Err.openFailure "ipc")) := by
  cases h1 : w.openNs p "ipc" <;> cases h2 : w.setnsOk "ipc" <;>
    simp [enterNamespace, nsMap, h1, h2]

/-- The four possible results of `enterNamespace` for the mnt kind:
success, bind failure after the unshare, detach failure before any
bind, open failure. -/
theorem ens_mnt_cases (w : World) (p : Nat) :
    enterNamespace w p "mnt" =
        ([Event.openNs "mnt", Event.unshare, Event.setns "mnt"], none) ∨
      enterNamespace w p "mnt" =
        ([Event.openNs "mnt", Event.unshare],
          some (Err.bindFailure "mnt")) ∨
      enterNamespace w p "mnt" =
        ([Event.openNs "mnt"], some Err.detachFailure) ∨
      enterNamespace w p "mnt" = ([], some (Err.openFailure "mnt")) := by
  cases h1 : w.openNs p "mnt" <;> cases h2 : w.unshareOk <;>
    cases h3 : w.setnsOk "mnt" <;> simp [enterNamespace, nsMap, h1, h2, h3]

theorem ens_uts_step (w : World) (p : Nat) :
    StepP (enterNamespace w p "uts") 0 2 := by
  rcases ens_uts_cases w p with h | h | h <;> rw [h] <;> decide

theorem ens_net_step (w : World) (p : Nat) :
    StepP (enterNamespace w p "net") 2 4 := by
  rcases ens_net_cases w p with h | h | h <;> rw [h] <;> decide

theorem ens_ipc_step (w : World) (p : Nat) :
    StepP (enterNamespace w p "ipc") 4 6 := by
  rcases ens_ipc_cases w p with h | h | h <;> rw [h] <;> decide

theorem ens_mnt_step (w : World) (p : Nat) :
    StepP (enterNamespace w p "mnt") 7 10 := by
  rcases ens_mnt_cases w p with h | h | h | h <;> rw [h] <;> decide

/-- A skipped or performed `enterNamespace` step preserves the
invariant, widening the stage bound from `B` to `B'`. -/
theorem seqNs_invP {cond : Bool} {w : World} {p : Nat} {k : String}
    {acc : List Event × Option Err} {B B' : Nat} (hBB : B ≤ B')
    (hens : StepP (enterNamespace w p k) B B') (hacc : InvP acc B) :
    InvP (seqNs cond w p k acc) B' := by
  obtain ⟨t, e⟩ := acc
  cases e with
  | some err => exact ⟨⟨hacc.1.1, le_trans hacc.1.2 hBB⟩, hacc.2⟩
  | none =>
    cases cond with
    | false => exact ⟨fun ev hev => le_trans (hacc.1 ev hev) hBB, hacc.2⟩
    | true =>
      show InvP (t ++ (enterNamespace w p k).1, (enterNamespace w p k).2) B'
      rcases hE : enterNamespace w p k with ⟨te, ee⟩
      rw [hE] at hens
      cases ee with
      | none =>
        refine ⟨fun ev hev => ?_, ?_⟩
        · rcases List.mem_append.mp hev with h | h
          · exact le_trans (hacc.1 ev h) hBB
          · exact (hens.1 ev h).2
        · refine List.pairwise_append.mpr ⟨hacc.2, hens.2, ?_⟩
          intro a ha b hb
          exact le_trans (hacc.1 a ha) (le_of_lt (hens.1 b hb).1)
      | some err =>
        refine ⟨⟨fun ev hev => ?_, hens.1.2.2⟩, ?_⟩
        · rcases List.mem_append.mp hev with h | h
          · exact lt_of_le_of_lt (hacc.1 ev h) hens.1.2.1
          · exact (hens.1.1 ev h).2
        · refine List.pairwise_append.mpr ⟨hacc.2, hens.2, ?_⟩
          intro a ha b hb
          exact le_trans (hacc.1 a ha) (le_of_lt (hens.1.1 b hb).1)

theorem s1_invP (w : World) (r : Request) : InvP (s1 w r) 2 :=
  seqNs_invP (by decide) (ens_uts_step w r.target) (by decide)

theorem s2_invP (w : World) (r : Request) : InvP (s2 w r) 4 :=
  seqNs_invP (by decide) (ens_net_step w r.target) (s1_invP w r)

theorem s3_invP (w : World) (r : Request) : InvP (s3 w r) 6 :=
  seqNs_invP (by decide) (ens_ipc_step w r.target) (s2_invP w r)

theorem s4_invP (w : World) (r : Request) : InvP (s4 w r) 7 := by
  unfold s4
  have hacc := s3_invP w r
  rcases h3 : s3 w r with ⟨t, e⟩
  rw [h3] at hacc
  cases e with
  | some err => exact ⟨⟨hacc.1.1, le_trans hacc.1.2 (by decide)⟩, hacc.2⟩
  | none =>
    cases hop : w.openNs r.target "pid" with
    | true =>
      refine ⟨fun ev hev => ?_, ?_⟩
      · rcases List.mem_append.mp hev with h | h
        · exact le_trans (hacc.1 ev h) (by decide)
        · rw [List.mem_singleton.mp h]; decide
      · refine List.pairwise_append.mpr ⟨hacc.2, by decide, ?_⟩
        intro a ha b hb
        rw [List.mem_singleton.mp hb]
        exact le_trans (hacc.1 a ha) (by decide)
    | false =>
      refine ⟨⟨fun ev hev => ?_, by decide⟩, hacc.2⟩
      exact lt_of_le_of_lt (hacc.1 ev hev) (by decide)

theorem s5_invP (w : World) (r : Request) : InvP (s5 w r) 10 :=
  seqNs_invP (by decide) (ens_mnt_step w r.target) (s4_invP w r)

theorem s6_invP (w : World) (r : Request) : InvP (s6 w r) 12 := by
  unfold s6
  have hacc := s5_invP w r
  rcases h5 : s5 w r with ⟨t, e⟩
  rw [h5] at hacc
  cases e with
  | some err => exact ⟨⟨hacc.1.1, le_trans hacc.1.2 (by decide)⟩, hacc.2⟩
  | none =>
    cases hp : r.pid with
    | false => exact ⟨fun ev hev => le_trans (hacc.1 ev hev) (by decide), hacc.2⟩
    | true =>
      cases hsp : w.setnsOk "pid" with
      | false =>
        refine ⟨⟨fun ev hev => ?_, by decide⟩, hacc.2⟩
        exact lt_of_le_of_lt (hacc.1 ev hev) (by decide)
      | true =>
        have hext : ∀ ev ∈ (if r.mnt then ([] : List Event)
            else [Event.advisory]), stage ev = 12 := by
          cases r.mnt <;> decide
        have hord : Ordered (if r.mnt then ([] : List Event)
            else [Event.advisory]) := by
          cases r.mnt <;> decide
        refine ⟨fun ev hev => ?_, ?_⟩
        · rcases List.mem_append.mp hev with h | h
          · rcases List.mem_append.mp h with h2 | h2
            · exact le_trans (hacc.1 ev h2) (by decide)
            · rw [List.mem_singleton.mp h2]; decide
          · rw [hext ev h]
        · refine List.pairwise_append.mpr ⟨?_, hord, ?_⟩
          · refine List.pairwise_append.mpr ⟨hacc.2, by decide, ?_⟩
            intro a ha b hb
            rw [List.mem_singleton.mp hb]
            exact le_trans (hacc.1 a ha) (by decide)
          · intro a ha b hb
            rw [hext b hb]
            rcases List.mem_append.mp ha with h | h
            · exact le_trans (hacc.1 a h) (by decide)
            · rw [List.mem_singleton.mp h]; decide

theorem runJoins_invP (w : World) (r : Request) : InvP (runJoins w r) 12 :=
  s6_invP w r

/-- Every trace of a whole invocation respects the source order. -/
theorem run_ordered (w : World) (r : Request) : Ordered (run w r).1 := by
  unfold run
  have hacc := runJoins_invP w r
  rcases hJ : runJoins w r with ⟨t, e⟩
  rw [hJ] at hacc
  cases e with
  | some err => exact hacc.2
  | none =>
    have hcross : ∀ a ∈ t, ∀ x : Event, 12 ≤ stage x → stage a ≤ stage x :=
      fun a ha x hx => le_trans (hacc.1 a ha) hx
    cases hp : r.pid with
    | true =>
      cases hrun : (w.startOk && w.childExit == 0) with
      | true =>
        show Ordered ((t ++ [Event.forkRun false]) ++
          [Event.attrAssignedAfterRun])
        refine List.pairwise_append.mpr ⟨?_, by decide, ?_⟩
        · refine List.pairwise_append.mpr ⟨hacc.2, by decide, ?_⟩
          intro a ha b hb
          rw [List.mem_singleton.mp hb]
          exact hcross a ha _ (by decide)
        · intro a ha b hb
          rw [List.mem_singleton.mp hb]
          rcases List.mem_append.mp ha with h | h
          · exact hcross a h _ (by decide)
          · rw [List.mem_singleton.mp h]; decide
      | false =>
        show Ordered (t ++ [Event.forkRun false])
        refine List.pairwise_append.mpr ⟨hacc.2, by decide, ?_⟩
        intro a ha b hb
        rw [List.mem_singleton.mp hb]
        exact hcross a ha _ (by decide)
    | false =>
      have : Ordered (t ++ [Event.execReplace]) := by
        refine List.pairwise_append.mpr ⟨hacc.2, by decide, ?_⟩
        intro a ha b hb
        rw [List.mem_singleton.mp hb]
        exact hcross a ha _ (by decide)
      cases hex : w.execOk <;> exact this

/-- In an order-respecting trace, an event of strictly smaller stage
sits at a strictly smaller index. -/
theorem stage_mono {t : List Event} (hs : Ordered t) (i j : Fin t.length)
    (h : stage (t.get i) < stage (t.get j)) : (i : Nat) < (j : Nat) := by
  rcases Nat.lt_trichotomy (i : Nat) (j : Nat) with hlt | heq | hgt
  · exact hlt
  · cases Fin.ext heq
    exact absurd h (lt_irrefl _)
  · have hle := List.pairwise_iff_get.mp hs j i hgt
    exact absurd (lt_of_le_of_lt hle h) (lt_irrefl _)

/-- Reduction equations for the sequenced steps: how each step of
`main` rewrites once the previous step's result is known. -/
theorem seqNs_of_err (cond : Bool) (w : World) (p : Nat) (k : String)
    {acc : List Event × Option Err} {t : List Event} {e : Err}
    (h : acc = (t, some e)) : seqNs cond w p k acc = (t, some e) := by
  rw [h]
  rfl

theorem seqNs_of_none (cond : Bool) (w : World) (p : Nat) (k : String)
    {acc : List Event × Option Err} {t : List Event}
    (h : acc = (t, none)) :
    seqNs cond w p k acc =
      if cond then
        (t ++ (enterNamespace w p k).1, (enterNamespace w p k).2)
      else (t, none) := by
  rw [h]
  rfl

theorem s1_eq (w : World) (r : Request) :
    s1 w r =
      if r.uts then enterNamespace w r.target "uts" else ([], none) := by
  unfold s1
  exact seqNs_of_none _ _ _ _ rfl

theorem s2_of_err {w : World} {r : Request} {t : List Event} {e : Err}
    (h : s1 w r = (t, some e)) : s2 w r = (t, some e) := by
  unfold s2
  exact seqNs_of_err _ _ _ _ h

theorem s2_of_none {w : World} {r : Request} {t : List Event}
    (h : s1 w r = (t, none)) :
    s2 w r =
      if r.net then
        (t ++ (enterNamespace w r.target "net").1,
          (enterNamespace w r.target "net").2)
      else (t, none) := by
  unfold s2
  exact seqNs_of_none _ _ _ _ h

theorem s3_of_err {w : World} {r : Request} {t : List Event} {e : Err}
    (h : s2 w r = (t, some e)) : s3 w r = (t, some e) := by
  unfold s3
  exact seqNs_of_err _ _ _ _ h

theorem s3_of_none {w : World} {r : Request} {t : List Event}
    (h : s2 w r = (t, none)) :
    s3 w r =
      if r.ipc then
        (t ++ (enterNamespace w r.target "ipc").1,
          (enterNamespace w r.target "ipc").2)
      else (t, none) := by
  unfold s3
  exact seqNs_of_none _ _ _ _ h

theorem s4_of_err {w : World} {r : Request} {t : List Event} {e : Err}
    (h : s3 w r = (t, some e)) : s4 w r = (t, some e) := by
  unfold s4
  rw [h]

theorem s4_of_none {w : World} {r : Request} {t : List Event}
    (h : s3 w r = (t, none)) :
    s4 w r =
      if w.openNs r.target "pid" then (t ++ [Event.openPidHandle], none)
      else (t, some (Err.openFailure "pid")) := by
  unfold s4
  rw [h]

theorem s5_of_err {w : World} {r : Request} {t : List Event} {e : Err}
    (h : s4 w r = (t, some e)) : s5 w r = (t, some e) := by
  unfold s5
  exact seqNs_of_err _ _ _ _ h

theorem s5_of_none {w : World} {r : Request} {t : List Event}
    (h : s4 w r = (t, none)) :
    s5 w r =
      if r.mnt then
        (t ++ (enterNamespace w r.target "mnt").1,
          (enterNamespace w r.target "mnt").2)
      else (t, none) := by
  unfold s5
  exact seqNs_of_none _ _ _ _ h

theorem s6_of_err {w : World} {r : Request} {t : List Event} {e : Err}
    (h : s5 w r = (t, some e)) : s6 w r = (t, some e) := by
  unfold s6
  rw [h]

theorem s6_of_none {w : World} {r : Request} {t : List Event}
    (h : s5 w r = (t, none)) :
    s6 w r =
      if r.pid then
        if w.setnsOk "pid" then
          (t ++ [Event.setns "pid"] ++
            (if r.mnt then [] else [Event.advisory]), none)
        else (t, some (Err.bindFailure "pid"))
      else (t, none) := by
  unfold s6
  rw [h]

theorem runJoins_of_err {w : World} {r : Request} {t : List Event}
    {e : Err} (h : s5 w r = (t, some e)) : runJoins w r = (t, some e) :=
  s6_of_err h

/-- A join failure makes `main` exit with status 1 carrying that
error. -/
theorem run_of_err {w : World} {r : Request} {t : List Event} {e : Err}
    (h : runJoins w r = (t, some e)) :
    run w r = (t, Outcome.exited 1 (some e)) := by
  unfold run
  rw [h]

theorem run_of_none {w : World} {r : Request} {t : List Event}
    (h : runJoins w r = (t, none)) :
    run w r =
      if r.pid then
        if w.startOk && w.childExit == 0 then
          (t ++ [Event.forkRun false] ++ [Event.attrAssignedAfterRun],
            Outcome.exited 0 none)
        else
          (t ++ [Event.forkRun false],
            Outcome.exited 1 (some Err.launchFailure))
      else
        if w.execOk then (t ++ [Event.execReplace], Outcome.replaced)
        else (t ++ [Event.execReplace],
          Outcome.exited 1 (some Err.launchFailure)) := by
  unfold run
  rw [h]

/-- When the pid-handle step succeeded, the handle-open event is in the
trace. -/
theorem s4_mem (w : World) (r : Request) (h : (s4 w r).2 = none) :
    Event.openPidHandle ∈ (s4 w r).1 := by
  rcases h3 : s3 w r with ⟨t, e⟩
  cases e with
  | some err => rw [s4_of_err h3] at h; simp at h
  | none =>
    rw [s4_of_none h3] at h ⊢
    rcases Bool.eq_false_or_eq_true (w.openNs r.target "pid") with hop | hop
    · rw [if_pos hop]
      simp
    · rw [if_neg (by simp [hop] : ¬ w.openNs r.target "pid" = true)] at h
      simp at h

theorem s5_mnt_mem (w : World) (r : Request)
    (h : Event.setns "mnt" ∈ (s5 w r).1) :
    Event.openPidHandle ∈ (s5 w r).1 := by
  have hinv := s4_invP w r
  have hmem := s4_mem w r
  rcases h4 : s4 w r with ⟨t, e⟩
  rw [h4] at hinv hmem
  cases e with
  | some err =>
    rw [s5_of_err h4] at h ⊢
    have h1 := hinv.1.1 _ h
    have h2 := hinv.1.2
    have h3 : stage (Event.setns "mnt") = 10 := by decide
    omega
  | none =>
    rw [s5_of_none h4] at h ⊢
    rcases Bool.eq_false_or_eq_true r.mnt with hm | hm
    · rw [if_pos hm] at h ⊢
      exact List.mem_append_left _ (hmem rfl)
    · rw [if_neg (by simp [hm] : ¬ r.mnt = true)] at h
      have h1 := hinv.1 _ h
      have h3 : stage (Event.setns "mnt") = 10 := by decide
      omega

theorem s6_mnt_mem (w : World) (r : Request)
    (h : Event.setns "mnt" ∈ (s6 w r).1) :
    Event.openPidHandle ∈ (s6 w r).1 := by
  have hmem := s5_mnt_mem w r
  rcases h5 : s5 w r with ⟨t, e⟩
  rw [h5] at hmem
  cases e with
  | some err =>
    rw [s6_of_err h5] at h ⊢
    exact hmem h
  | none =>
    rw [s6_of_none h5] at h ⊢
    rcases Bool.eq_false_or_eq_true r.pid with hp | hp
    · rw [if_pos hp] at h ⊢
      rcases Bool.eq_false_or_eq_true (w.setnsOk "pid") with hsp | hsp
      · rw [if_pos hsp] at h ⊢
        rcases List.mem_append.mp h with h2 | h2
        · rcases List.mem_append.mp h2 with h3 | h3
          · exact List.mem_append_left _ (List.mem_append_left _ (hmem h3))
          · simp at h3
        · exfalso
          rcases Bool.eq_false_or_eq_true r.mnt with hrm | hrm
          · rw [if_pos hrm] at h2; simp at h2
          · rw [if_neg (by simp [hrm] : ¬ r.mnt = true)] at h2
            simp at h2
      · rw [if_neg (by simp [hsp] : ¬ w.setnsOk "pid" = true)] at h ⊢
        exact hmem h
    · rw [if_neg (by simp [hp] : ¬ r.pid = true)] at h ⊢
      exact hmem h

/-- The mount bind only appears in a whole-run trace if the pid-handle
open appears too. -/
theorem run_mnt_mem (w : World) (r : Request)
    (h : Event.setns "mnt" ∈ (run w r).1) :
    Event.openPidHandle ∈ (run w r).1 := by
  have hmem := s6_mnt_mem w r
  rcases h6 : runJoins w r with ⟨t, e⟩
  have h6' : s6 w r = (t, e) := h6
  rw [h6'] at hmem
  cases e with
  | some err =>
    rw [run_of_err h6] at h ⊢
    exact hmem h
  | none =>
    rw [run_of_none h6] at h ⊢
    rcases Bool.eq_false_or_eq_true r.pid with hp | hp
    · rw [if_pos hp] at h ⊢
      rcases Bool.eq_false_or_eq_true (w.startOk && w.childExit == 0)
        with hrun | hrun
      · rw [if_pos hrun] at h ⊢
        rcases List.mem_append.mp h with h2 | h2
        · rcases List.mem_append.mp h2 with h3 | h3
          · exact List.mem_append_left _ (List.mem_append_left _ (hmem h3))
          · simp at h3
        · simp at h2
      · rw [if_neg (by simp [hrun] :
          ¬ (w.startOk && w.childExit == 0) = true)] at h ⊢
        rcases List.mem_append.mp h with h2 | h2
        · exact List.mem_append_left _ (hmem h2)
        · simp at h2
    · rw [if_neg (by simp [hp] : ¬ r.pid = true)] at h ⊢
      rcases Bool.eq_false_or_eq_true w.execOk with hex | hex
      · rw [if_pos hex] at h ⊢
        rcases List.mem_append.mp h with h2 | h2
        · exact List.mem_append_left _ (hmem h2)
        · simp at h2
      · rw [if_neg (by simp [hex] : ¬ w.execOk = true)] at h ⊢
        rcases List.mem_append.mp h with h2 | h2
        · exact List.mem_append_left _ (hmem h2)
        · simp at h2

theorem ens_uts_ok (w : World) (p : Nat) (h1 : w.openNs p "uts" = true)
    (h2 : w.setnsOk "uts" = true) :
    enterNamespace w p "uts" =
      ([Event.openNs "uts", Event.setns "uts"], none) := by
  simp [enterNamespace, nsMap, h1, h2]

theorem ens_net_ok (w : World) (p : Nat) (h1 : w.openNs p "net" = true)
    (h2 : w.setnsOk "net" = true) :
    enterNamespace w p "net" =
      ([Event.openNs "net", Event.setns "net"], none) := by
  simp [enterNamespace, nsMap, h1, h2]

theorem ens_ipc_ok (w : World) (p : Nat) (h1 : w.openNs p "ipc" = true)
    (h2 : w.setnsOk "ipc" = true) :
    enterNamespace w p "ipc" =
      ([Event.openNs "ipc", Event.setns "ipc"], none) := by
  simp [enterNamespace, nsMap, h1, h2]

theorem ens_mnt_ok (w : World) (p : Nat) (h1 : w.openNs p "mnt" = true)
    (h2 : w.unshareOk = true) (h3 : w.setnsOk "mnt" = true) :
    enterNamespace w p "mnt" =
      ([Event.openNs "mnt", Event.unshare, Event.setns "mnt"], none) := by
  simp [enterNamespace, nsMap, h1, h2, h3]

/-- When every syscall of the join sequence succeeds, the sequence
produces exactly the canonical trace of the requested kinds and no
error. -/
theorem runJoins_ok (w : World) (r : Request) (h : allNsOk w r = true) :
    runJoins w r = (fullTrace r, none) := by
  simp only [allNsOk, Bool.and_eq_true, Bool.or_eq_true,
    Bool.not_eq_true'] at h
  obtain ⟨⟨⟨⟨⟨hu, hn⟩, hi⟩, hp⟩, hm⟩, hpid⟩ := h
  cases hru : r.uts <;> cases hrn : r.net <;> cases hri : r.ipc <;>
    cases hrm : r.mnt <;> cases hrp : r.pid <;>
    simp_all [runJoins, s6, s5, s4, s3, s2, s1, seqNs, fullTrace,
      ens_uts_ok, ens_net_ok, ens_ipc_ok, ens_mnt_ok]

/-- Each later step only appends to the trace of an earlier step. -/
theorem s5_extends (w : World) (r : Request) :
    ∃ ex, (s5 w r).1 = (s4 w r).1 ++ ex := by
  rcases h4 : s4 w r with ⟨t, e⟩
  cases e with
  | some err => rw [s5_of_err h4]; exact ⟨[], by simp⟩
  | none =>
    rw [s5_of_none h4]
    rcases Bool.eq_false_or_eq_true r.mnt with hm | hm
    · rw [if_pos hm]
      exact ⟨(enterNamespace w r.target "mnt").1, rfl⟩
    · rw [if_neg (by simp [hm])]
      exact ⟨[], by simp⟩

theorem s6_extends (w : World) (r : Request) :
    ∃ ex, (s6 w r).1 = (s5 w r).1 ++ ex := by
  rcases h5 : s5 w r with ⟨t, e⟩
  cases e with
  | some err => rw [s6_of_err h5]; exact ⟨[], by simp⟩
  | none =>
    rw [s6_of_none h5]
    rcases Bool.eq_false_or_eq_true r.pid with hp | hp
    · rw [if_pos hp]
      rcases Bool.eq_false_or_eq_true (w.setnsOk "pid") with hsp | hsp
      · rw [if_pos hsp]
        exact ⟨[Event.setns "pid"] ++
          (if r.mnt then [] else [Event.advisory]), by simp⟩
      · rw [if_neg (by simp [hsp])]
        exact ⟨[], by simp⟩
    · rw [if_neg (by simp [hp])]
      exact ⟨[], by simp⟩

theorem run_extends (w : World) (r : Request) :
    ∃ ex, (run w r).1 = (runJoins w r).1 ++ ex := by
  rcases h6 : runJoins w r with ⟨t, e⟩
  cases e with
  | some err => rw [run_of_err h6]; exact ⟨[], by simp⟩
  | none =>
    rw [run_of_none h6]
    rcases Bool.eq_false_or_eq_true r.pid with hp | hp
    · rw [if_pos hp]
      rcases Bool.eq_false_or_eq_true (w.startOk && w.childExit == 0)
        with hr | hr
      · rw [if_pos hr]
        exact ⟨[Event.forkRun false] ++ [Event.attrAssignedAfterRun],
          by simp⟩
      · rw [if_neg (by simp [hr])]
        exact ⟨[Event.forkRun false], rfl⟩
    · rw [if_neg (by simp [hp])]
      rcases Bool.eq_false_or_eq_true w.execOk with hex | hex
      · rw [if_pos hex]
        exact ⟨[Event.execReplace], rfl⟩
      · rw [if_neg (by simp [hex])]
        exact ⟨[Event.execReplace], rfl⟩

/-- The uts/net/ipc prefix of the sequence when those steps succeed. -/
theorem s3_ok (w : World) (r : Request)
    (hu : r.uts = true →
      w.openNs r.target "uts" = true ∧ w.setnsOk "uts" = true)
    (hn : r.net = true →
      w.openNs r.target "net" = true ∧ w.setnsOk "net" = true)
    (hi : r.ipc = true →
      w.openNs r.target "ipc" = true ∧ w.setnsOk "ipc" = true) :
    s3 w r = (pre3 r, none) := by
  have h1 : s1 w r =
      ((if r.uts then [Event.openNs "uts", Event.setns "uts"] else []),
        none) := by
    rw [s1_eq]
    rcases Bool.eq_false_or_eq_true r.uts with h | h
    · rw [if_pos h, if_pos h, ens_uts_ok w r.target (hu h).1 (hu h).2]
    · rw [if_neg (by simp [h] : ¬ r.uts = true),
        if_neg (by simp [h] : ¬ r.uts = true)]
  have h2 : s2 w r =
      ((if r.uts then [Event.openNs "uts", Event.setns "uts"] else []) ++
        (if r.net then [Event.openNs "net", Event.setns "net"] else []),
        none) := by
    rw [s2_of_none h1]
    rcases Bool.eq_false_or_eq_true r.net with h | h
    · rw [if_pos h, if_pos h, ens_net_ok w r.target (hn h).1 (hn h).2]
    · rw [if_neg (by simp [h] : ¬ r.net = true),
        if_neg (by simp [h] : ¬ r.net = true)]
      simp
  rw [s3_of_none h2]
  unfold pre3
  rcases Bool.eq_false_or_eq_true r.ipc with h | h
  · rw [if_pos h, if_pos h, ens_ipc_ok w r.target (hi h).1 (hi h).2]
  · rw [if_neg (by simp [h] : ¬ r.ipc = true),
      if_neg (by simp [h] : ¬ r.ipc = true)]
    simp

/-- A world in which every syscall succeeds and the child exits 0. -/
def wAll : World :=
  { openNs := fun _ _ => true, unshareOk := true, setnsOk := fun _ => true,
    execOk := true, startOk := true, childExit := 0 }

/-- A world in which the target process does not exist: every
namespace-file open fails. -/
def wDead : World :=
  { openNs := fun _ _ => false, unshareOk := true, setnsOk := fun _ => true,
    execOk := true, startOk := true, childExit := 0 }

/-- A world in which every open succeeds but every `setns` fails. -/
def wBindFail : World :=
  { openNs := fun _ _ => true, unshareOk := true, setnsOk := fun _ => false,
    execOk := true, startOk := true, childExit := 0 }

/-- A world in which everything succeeds but the child exits 2. -/
def wChild2 : World :=
  { openNs := fun _ _ => true, unshareOk := true, setnsOk := fun _ => true,
    execOk := true, startOk := true, childExit := 2 }

/-- All five namespace kinds requested. -/
def rAllReq : Request :=
  { target := 4242, mnt := true, uts := true, net := true, ipc := true,
    pid := true }

/-- Only the PID namespace requested (scenario B of the spec). -/
def rPidOnly : Request :=
  { target := 4242, mnt := false, uts := false, net := false, ipc := false,
    pid := true }

/-- Mount and PID namespaces requested. -/
def rMntPid : Request :=
  { target := 7, mnt := true, uts := false, net := false, ipc := false,
    pid := true }

/-- Only the mount namespace requested, target 99999 (scenario C). -/
def rMntOnly : Request :=
  { target := 99999, mnt := true, uts := false, net := false, ipc := false,
    pid := false }

/-- Only the UTS namespace requested. -/
def rUtsOnly : Request :=
  { target := 4242, mnt := false, uts := true, net := false, ipc := false,
    pid := false }

/-- C7: when joining the mount namespace (and the namespace file could
be opened), the self-unshare is performed before the bind: a detach
failure aborts with `detachFailure` before any mount `setns` event; on
success the `unshare` event precedes the `setns "mnt"` event; a bind
failure still has the `unshare` first and no bind event. -/
theorem c7_detach_before_mnt_bind (w : World) (p : Nat)
    (ho : w.openNs p "mnt" = true) :
    (w.unshareOk = false →
      enterNamespace w p "mnt" =
        ([Event.openNs "mnt"], some Err.detachFailure)) ∧
    (w.unshareOk = true → w.setnsOk "mnt" = true →
      enterNamespace w p "mnt" =
        ([Event.openNs "mnt", Event.unshare, Event.setns "mnt"], none)) ∧
    (w.unshareOk = true → w.setnsOk "mnt" = false →
      enterNamespace w p "mnt" =
        ([Event.openNs "mnt", Event.unshare],
          some (Err.bindFailure "mnt"))) := by
  refine ⟨?_, ?_, ?_⟩
  · intro h1
    simp [enterNamespace, nsMap, ho, h1]
  · intro h1 h2
    simp [enterNamespace, nsMap, ho, h1, h2]
  · intro h1 h2
    simp [enterNamespace, nsMap, ho, h1, h2]

theorem c7_detach_before_mnt_bind_witness :
    wBindFail.openNs 3 "mnt" = true ∧
    ((wBindFail.unshareOk = false →
      enterNamespace wBindFail 3 "mnt" =
        ([Event.openNs "mnt"], some Err.detachFailure)) ∧
    (wBindFail.unshareOk = true → wBindFail.setnsOk "mnt" = true →
      enterNamespace wBindFail 3 "mnt" =
        ([Event.openNs "mnt", Event.unshare, Event.setns "mnt"], none)) ∧
    (wBindFail.unshareOk = true → wBindFail.setnsOk "mnt" = false →
      enterNamespace wBindFail 3 "mnt" =
        ([Event.openNs "mnt", Event.unshare],
          some (Err.bindFailure "mnt")))) :=
  ⟨by decide, c7_detach_before_mnt_bind wBindFail 3 (by decide)⟩

/-- C2 (code bug): with only the PID namespace requested and every
syscall succeeding, the whole trace is performed by the parent: the
`setns "pid"` bind happens in the parent (line 124) before the child is
even spawned, the child is spawned by `cmd.Run()` with no CLONE_NEWPID
clone flag set (`forkRun false`), and the `SysProcAttr` assignment of
lines 145-147 happens only after the child has already run.  The
spawned child never performs any deferred PID-namespace bind,
contradicting the claim (and the source's own comment on line 144,
"Enter PID namespace *in child only*"). -/
theorem c2_parent_binds_pid_child_does_not :
    run wAll rPidOnly =
      ([Event.openPidHandle, Event.setns "pid", Event.advisory,
        Event.forkRun false, Event.attrAssignedAfterRun],
        Outcome.exited 0 none) := by decide

/-- C5: any join failure `e` terminates the invocation with the nonzero
exit status 1 carrying `e`, and every event that was performed sits
strictly before the source position of the failing operation: nothing
after the failing open or bind runs. -/
theorem c5_fail_fast (w : World) (r : Request) (e : Err)
    (h : (runJoins w r).2 = some e) :
    (run w r).2 = Outcome.exited 1 (some e) ∧ (1 : Nat) ≠ 0 ∧
      ∀ ev ∈ (run w r).1, stage ev < errStage e := by
  rcases hJ : runJoins w r with ⟨t, e2⟩
  rw [hJ] at h
  have he : e2 = some e := h
  subst he
  have hinv := runJoins_invP w r
  rw [hJ] at hinv
  rw [run_of_err hJ]
  exact ⟨rfl, by decide, hinv.1.1⟩

theorem c5_fail_fast_witness :
    (runJoins wBindFail rUtsOnly).2 = some (Err.bindFailure "uts") ∧
    ((run wBindFail rUtsOnly).2 =
        Outcome.exited 1 (some (Err.bindFailure "uts")) ∧
      (1 : Nat) ≠ 0 ∧
      ∀ ev ∈ (run wBindFail rUtsOnly).1,
        stage ev < errStage (Err.bindFailure "uts")) :=
  ⟨by decide,
    c5_fail_fast wBindFail rUtsOnly (Err.bindFailure "uts") (by decide)⟩

/-- C6 counterexample: for the non-existent target 99999 with only the
mount namespace requested, the failure is not a namespace-open failure
attributed to the mount kind: the unconditional open of
`/proc/99999/ns/pid` (line 109) fails first, so the diagnostic names
the pid namespace file and the mount kind is never even opened. -/
theorem c6_counterexample :
    (run wDead rMntOnly).2 =
        Outcome.exited 1 (some (Err.openFailure "pid")) ∧
      ¬ (run wDead rMntOnly).2 =
        Outcome.exited 1 (some (Err.openFailure "mnt")) ∧
      ¬ Event.openNs "mnt" ∈ (run wDead rMntOnly).1 := by decide

/-- C6 (amended): for an invocation requesting only the mount
namespace whose target's pid namespace file cannot be opened (for
example a non-existent target), the invocation fails at the
unconditional pid-handle open: it exits immediately with status 1 and
an open failure naming the pid namespace file, with an empty trace, so
no namespace kind — not even the requested mount kind — is
attempted. -/
theorem c6_dead_target_mnt_only (w : World) (r : Request)
    (hu : r.uts = false) (hn : r.net = false) (hi : r.ipc = false)
    (_hm : r.mnt = true) (hop : w.openNs r.target "pid" = false) :
    run w r = ([], Outcome.exited 1 (some (Err.openFailure "pid"))) := by
  have h1 : s1 w r = ([], none) := by
    rw [s1_eq, if_neg (by simp [hu] : ¬ r.uts = true)]
  have h2 : s2 w r = ([], none) := by
    rw [s2_of_none h1, if_neg (by simp [hn] : ¬ r.net = true)]
  have h3 : s3 w r = ([], none) := by
    rw [s3_of_none h2, if_neg (by simp [hi] : ¬ r.ipc = true)]
  have h4 : s4 w r = ([], some (Err.openFailure "pid")) := by
    rw [s4_of_none h3,
      if_neg (by simp [hop] : ¬ w.openNs r.target "pid" = true)]
  exact run_of_err (s6_of_err (s5_of_err h4))

theorem c6_dead_target_mnt_only_witness :
    rMntOnly.uts = false ∧ rMntOnly.net = false ∧ rMntOnly.ipc = false ∧
      rMntOnly.mnt = true ∧ wDead.openNs rMntOnly.target "pid" = false ∧
      run wDead rMntOnly =
        ([], Outcome.exited 1 (some (Err.openFailure "pid"))) :=
  ⟨by decide, by decide, by decide, by decide, by decide,
    c6_dead_target_mnt_only wDead rMntOnly (by decide) (by decide)
      (by decide) (by decide) (by decide)⟩

/-- C9 counterexample: with only the PID namespace requested, every
syscall succeeding and the child exiting with status 2, the invocation
does not exit with the child's status 2: `cmd.Run()` returns an error
and `main` exits with status 1 (line 142). -/
theorem c9_counterexample :
    (run wChild2 rPidOnly).2 =
        Outcome.exited 1 (some Err.launchFailure) ∧
      ¬ (run wChild2 rPidOnly).2 = Outcome.exited 2 none := by decide

/-- C9 (amended): a fork-mode launch whose child could be started exits
with status 0 exactly when the child exited 0; any other child exit
status makes `cmd.Run()` return an error and the invocation exits with
status 1, not with the child's status. -/
theorem c9_fork_exit_status (w : World) (r : Request)
    (h : allNsOk w r = true) (hp : r.pid = true) (hs : w.startOk = true) :
    (run w r).2 =
      if w.childExit = 0 then Outcome.exited 0 none
      else Outcome.exited 1 (some Err.launchFailure) := by
  have hJ := runJoins_ok w r h
  rw [run_of_none hJ, if_pos hp]
  rcases Nat.eq_zero_or_pos w.childExit with hz | hz
  · rw [if_pos (by simp [hs, hz] : (w.startOk && w.childExit == 0) = true)]
    simp [hz]
  · have hzz : ¬ w.childExit = 0 := Nat.pos_iff_ne_zero.mp hz
    rw [if_neg
      (by simp [hs, hzz] : ¬ (w.startOk && w.childExit == 0) = true)]
    simp [hzz]

theorem c9_fork_exit_status_witness :
    allNsOk wChild2 rPidOnly = true ∧ rPidOnly.pid = true ∧
      wChild2.startOk = true ∧
      (run wChild2 rPidOnly).2 =
        (if wChild2.childExit = 0 then Outcome.exited 0 none
         else Outcome.exited 1 (some Err.launchFailure)) :=
  ⟨by decide, by decide, by decide,
    c9_fork_exit_status wChild2 rPidOnly (by decide) (by decide)
      (by decide)⟩

/-- C1: in every trace, every uts/net/ipc bind event precedes the
mount bind event, and the mount bind event precedes the pid bind
event, whenever they occur together. -/
theorem c1_bind_ordering (w : World) (r : Request)
    (_h1 : r.uts = true ∨ r.net = true ∨ r.ipc = true)
    (_h2 : r.mnt = true ∨ r.pid = true) :
    ∀ i j : Fin (run w r).1.length,
      (((run w r).1.get i = Event.setns "uts" ∨
          (run w r).1.get i = Event.setns "net" ∨
          (run w r).1.get i = Event.setns "ipc") →
        (run w r).1.get j = Event.setns "mnt" →
          (i : Nat) < (j : Nat)) ∧
      ((run w r).1.get i = Event.setns "mnt" →
        (run w r).1.get j = Event.setns "pid" →
          (i : Nat) < (j : Nat)) := by
  intro i j
  constructor
  · intro hi hj
    refine stage_mono (run_ordered w r) i j ?_
    rw [hj]
    rcases hi with h | h | h <;> rw [h] <;> decide
  · intro hi hj
    refine stage_mono (run_ordered w r) i j ?_
    rw [hi, hj]
    decide

theorem c1_bind_ordering_witness :
    (rAllReq.uts = true ∨ rAllReq.net = true ∨ rAllReq.ipc = true) ∧
    (rAllReq.mnt = true ∨ rAllReq.pid = true) ∧
    ∀ i j : Fin (run wAll rAllReq).1.length,
      (((run wAll rAllReq).1.get i = Event.setns "uts" ∨
          (run wAll rAllReq).1.get i = Event.setns "net" ∨
          (run wAll rAllReq).1.get i = Event.setns "ipc") →
        (run wAll rAllReq).1.get j = Event.setns "mnt" →
          (i : Nat) < (j : Nat)) ∧
      ((run wAll rAllReq).1.get i = Event.setns "mnt" →
        (run wAll rAllReq).1.get j = Event.setns "pid" →
          (i : Nat) < (j : Nat)) :=
  ⟨by decide, by decide,
    c1_bind_ordering wAll rAllReq (by decide) (by decide)⟩

/-- C3: whenever the mount bind occurs in a trace, the pid-handle open
occurs at a strictly earlier position. -/
theorem c3_pid_handle_before_mnt_bind (w : World) (r : Request)
    (_h : r.mnt = true ∧ r.pid = true) :
    ∀ j : Fin (run w r).1.length,
      (run w r).1.get j = Event.setns "mnt" →
      ∃ i : Fin (run w r).1.length,
        (i : Nat) < (j : Nat) ∧
          (run w r).1.get i = Event.openPidHandle := by
  intro j hj
  have hm : Event.setns "mnt" ∈ (run w r).1 := by
    rw [← hj]
    exact List.get_mem _ j.1 j.2
  rcases List.mem_iff_get.mp (run_mnt_mem w r hm) with ⟨i, hi⟩
  refine ⟨i, ?_, hi⟩
  refine stage_mono (run_ordered w r) i j ?_
  rw [hi, hj]
  decide

theorem c3_pid_handle_before_mnt_bind_witness :
    (rMntPid.mnt = true ∧ rMntPid.pid = true) ∧
    ∀ j : Fin (run wAll rMntPid).1.length,
      (run wAll rMntPid).1.get j = Event.setns "mnt" →
      ∃ i : Fin (run wAll rMntPid).1.length,
        (i : Nat) < (j : Nat) ∧
          (run wAll rMntPid).1.get i = Event.openPidHandle :=
  ⟨by decide, c3_pid_handle_before_mnt_bind wAll rMntPid (by decide)⟩

/-- C4: in a successful invocation, the launch mode is fork (spawn a
child with `cmd.Run()` and wait) exactly when the PID namespace was
requested, and replace (`unix.Exec`) exactly when it was not. -/
theorem c4_mode_determinism (w : World) (r : Request)
    (h : allNsOk w r = true) :
    ((∃ b, Event.forkRun b ∈ (run w r).1) ↔ r.pid = true) ∧
    (Event.execReplace ∈ (run w r).1 ↔ r.pid = false) := by
  have hJ := runJoins_ok w r h
  have hinv := runJoins_invP w r
  rw [hJ] at hinv
  have hfull : ∀ ev ∈ fullTrace r, stage ev ≤ 12 := hinv.1
  have hnf : ∀ b : Bool, ¬ Event.forkRun b ∈ fullTrace r := by
    intro b hc
    have hb := hfull _ hc
    have hs : stage (Event.forkRun b) = 13 := by cases b <;> decide
    omega
  have hne : ¬ Event.execReplace ∈ fullTrace r := by
    intro hc
    have hb := hfull _ hc
    have hs : stage Event.execReplace = 13 := by decide
    omega
  rw [run_of_none hJ]
  rcases Bool.eq_false_or_eq_true r.pid with hp | hp
  · rw [if_pos hp]
    rcases Bool.eq_false_or_eq_true (w.startOk && w.childExit == 0)
      with hr | hr
    · rw [if_pos hr]
      constructor
      · constructor
        · intro _; exact hp
        · intro _
          exact ⟨false, by simp⟩
      · constructor
        · intro hc
          exfalso
          simp only [List.mem_append] at hc
          rcases hc with (hc | hc) | hc
          · exact hne hc
          · simp at hc
          · simp at hc
        · intro hc
          rw [hp] at hc
          simp at hc
    · rw [if_neg (by simp [hr] : ¬ (w.startOk && w.childExit == 0) = true)]
      constructor
      · constructor
        · intro _; exact hp
        · intro _
          exact ⟨false, by simp⟩
      · constructor
        · intro hc
          exfalso
          simp only [List.mem_append] at hc
          rcases hc with hc | hc
          · exact hne hc
          · simp at hc
        · intro hc
          rw [hp] at hc
          simp at hc
  · rw [if_neg (by simp [hp] : ¬ r.pid = true)]
    rcases Bool.eq_false_or_eq_true w.execOk with hex | hex
    · rw [if_pos hex]
      constructor
      · constructor
        · rintro ⟨b, hb⟩
          exfalso
          simp only [List.mem_append] at hb
          rcases hb with hb | hb
          · exact hnf b hb
          · simp at hb
        · intro hc
          rw [hp] at hc
          simp at hc
      · constructor
        · intro _; exact hp
        · intro _
          exact List.mem_append_right _ (by simp)
    · rw [if_neg (by simp [hex] : ¬ w.execOk = true)]
      constructor
      · constructor
        · rintro ⟨b, hb⟩
          exfalso
          simp only [List.mem_append] at hb
          rcases hb with hb | hb
          · exact hnf b hb
          · simp at hb
        · intro hc
          rw [hp] at hc
          simp at hc
      · constructor
        · intro _; exact hp
        · intro _
          exact List.mem_append_right _ (by simp)

theorem c4_mode_determinism_witness :
    allNsOk wAll rAllReq = true ∧
    (((∃ b, Event.forkRun b ∈ (run wAll rAllReq).1) ↔
        rAllReq.pid = true) ∧
      (Event.execReplace ∈ (run wAll rAllReq).1 ↔ rAllReq.pid = false)) :=
  ⟨by decide, c4_mode_determinism wAll rAllReq (by decide)⟩

/-- C8: a successful invocation requesting PID but not mount emits the
advisory and still reaches the fork-mode launch: the advisory is
non-fatal. -/
theorem c8_advisory_nonfatal (w : World) (r : Request)
    (h : allNsOk w r = true) (hp : r.pid = true) (hm : r.mnt = false) :
    Event.advisory ∈ (run w r).1 ∧
      Event.forkRun false ∈ (run w r).1 := by
  have hJ := runJoins_ok w r h
  have hadv : Event.advisory ∈ fullTrace r := by
    simp [fullTrace, hp, hm]
  rw [run_of_none hJ, if_pos hp]
  rcases Bool.eq_false_or_eq_true (w.startOk && w.childExit == 0)
    with hr | hr
  · rw [if_pos hr]
    exact ⟨List.mem_append_left _ (List.mem_append_left _ hadv),
      List.mem_append_left _ (List.mem_append_right _ (by simp))⟩
  · rw [if_neg (by simp [hr] : ¬ (w.startOk && w.childExit == 0) = true)]
    exact ⟨List.mem_append_left _ hadv,
      List.mem_append_right _ (by simp)⟩

theorem c8_advisory_nonfatal_witness :
    allNsOk wAll rPidOnly = true ∧ rPidOnly.pid = true ∧
      rPidOnly.mnt = false ∧
      (Event.advisory ∈ (run wAll rPidOnly).1 ∧
        Event.forkRun false ∈ (run wAll rPidOnly).1) :=
  ⟨by decide, by decide, by decide,
    c8_advisory_nonfatal wAll rPidOnly (by decide) (by decide)
      (by decide)⟩

/-- C10 (implicit): whenever the uts/net/ipc steps succeed, `main`
opens `/proc/target/ns/pid` unconditionally — if that open fails the
invocation exits with status 1 and an open failure naming the pid
namespace file, whatever kinds were requested; if it succeeds, the
handle-open event is in the trace even when the PID namespace was not
requested. -/
theorem c10_unconditional_pid_open (w : World) (r : Request)
    (hu : r.uts = true →
      w.openNs r.target "uts" = true ∧ w.setnsOk "uts" = true)
    (hn : r.net = true →
      w.openNs r.target "net" = true ∧ w.setnsOk "net" = true)
    (hi : r.ipc = true →
      w.openNs r.target "ipc" = true ∧ w.setnsOk "ipc" = true) :
    (w.openNs r.target "pid" = false →
      (run w r).2 = Outcome.exited 1 (some (Err.openFailure "pid"))) ∧
    (w.openNs r.target "pid" = true →
      Event.openPidHandle ∈ (run w r).1) := by
  have h3 := s3_ok w r hu hn hi
  constructor
  · intro hop
    have h4 : s4 w r = (pre3 r, some (Err.openFailure "pid")) := by
      rw [s4_of_none h3,
        if_neg (by simp [hop] : ¬ w.openNs r.target "pid" = true)]
    rw [run_of_err (s6_of_err (s5_of_err h4))]
  · intro hop
    have h4 : s4 w r = (pre3 r ++ [Event.openPidHandle], none) := by
      rw [s4_of_none h3, if_pos hop]
    have hm4 : Event.openPidHandle ∈ (s4 w r).1 := by
      rw [h4]
      simp
    rcases s5_extends w r with ⟨ex5, he5⟩
    rcases s6_extends w r with ⟨ex6, he6⟩
    rcases run_extends w r with ⟨ex7, he7⟩
    rw [he7]
    have he6' : (runJoins w r).1 = (s5 w r).1 ++ ex6 := he6
    rw [he6', he5]
    exact List.mem_append_left _ (List.mem_append_left _
      (List.mem_append_left _ hm4))

theorem c10_unconditional_pid_open_witness :
    (rMntOnly.uts = true →
      wDead.openNs rMntOnly.target "uts" = true ∧
        wDead.setnsOk "uts" = true) ∧
    (rMntOnly.net = true →
      wDead.openNs rMntOnly.target "net" = true ∧
        wDead.setnsOk "net" = true) ∧
    (rMntOnly.ipc = true →
      wDead.openNs rMntOnly.target "ipc" = true ∧
        wDead.setnsOk "ipc" = true) ∧
    ((wDead.openNs rMntOnly.target "pid" = false →
      (run wDead rMntOnly).2 =
        Outcome.exited 1 (some (Err.openFailure "pid"))) ∧
    (wDead.openNs rMntOnly.target "pid" = true →
      Event.openPidHandle ∈ (run wDead rMntOnly).1)) :=
  ⟨by decide, by decide, by decide,
    c10_unconditional_pid_open wDead rMntOnly (by decide) (by decide)
      (by decide)⟩

end NsEnter
